import Mathlib

/-!
Verification of the session-persistence core of the Shariaa contract-analyzer
mobile client: the chunked key-value storage layer (`src/app/utils/storage.ts`,
`nativeStorage`) and the session orchestrator (`src/app/contexts/SessionContext.tsx`).

Strings are modelled as `List Char` (`Str`); the primitive SecureStore is an
association list from keys to values.  All asynchronous code in the source runs
sequentially (each call is awaited), so it is embedded as explicit state
passing.  Failures of the primitive store's delete operation are modelled by a
predicate `F : Str → Bool` naming the keys whose deletion throws; the other
primitive operations never throw in the modelled regime (all stored chunks fit
the capacity bound).
-/

namespace App

/-- Character strings, modelled as their underlying character lists. -/
abbrev Str := List Char

/-- Shorthand embedding of a Lean string literal into `Str`. -/
def str (s : String) : Str := s.data

/-! ### Decimal numerals

`Number.prototype.toString` on a chunk count and `parseInt(s, 10)` on the
stored manifest.  `natRepr` is the usual decimal representation; `jsParseInt`
parses the leading digit run of a string (as `parseInt` does on the numeral
strings this module stores) and is `none` where `parseInt` yields `NaN`. -/

/-- The decimal digit character for `d % 10`-sized inputs (callers pass `d < 10`). -/
def digitChar : Nat → Char
  | 0 => '0' | 1 => '1' | 2 => '2' | 3 => '3' | 4 => '4'
  | 5 => '5' | 6 => '6' | 7 => '7' | 8 => '8' | _ => '9'

/-- Numeric value of a digit character. -/
def digitVal (c : Char) : Nat := c.toNat - 48

/-- Structural worker for `natRepr`; the fuel only bounds the recursion depth
(any fuel above the argument gives the same answer, `natReprAux_congr`). -/
def natReprAux (fuel : Nat) (n : Nat) : Str :=
  match fuel with
  | 0 => []
  | fuel + 1 =>
    if n < 10 then [digitChar n] else natReprAux fuel (n / 10) ++ [digitChar (n % 10)]

/-- Decimal representation of a natural number (`n.toString()` in the source);
its recursion equation is `natRepr_eq`. -/
def natRepr (n : Nat) : Str := natReprAux (n + 1) n

theorem natReprAux_congr (fuel₁ : Nat) :
    ∀ fuel₂ n, n < fuel₁ → n < fuel₂ → natReprAux fuel₁ n = natReprAux fuel₂ n := by
  induction fuel₁ with
  | zero => omega
  | succ fuel₁ ih =>
    intro fuel₂ n h1 h2
    match fuel₂, h2 with
    | fuel₂ + 1, _ =>
      simp only [natReprAux]
      split
      · rfl
      · next h10 => rw [ih fuel₂ (n / 10) (by omega) (by omega)]

theorem natRepr_eq (n : Nat) :
    natRepr n = if n < 10 then [digitChar n] else natRepr (n / 10) ++ [digitChar (n % 10)] := by
  unfold natRepr
  conv_lhs => rw [natReprAux]
  split
  · rfl
  · next h10 =>
    rw [natReprAux_congr n (n / 10 + 1) (n / 10) (by omega) (by omega)]

/-- Longest digit run at the head of a string. -/
def digitsHead : Str → Str
  | [] => []
  | c :: cs => if c.isDigit then c :: digitsHead cs else []

/-- Numeric value of a digit string, accumulated left to right. -/
def digitsVal (s : Str) : Nat := s.foldl (fun a c => a * 10 + digitVal c) 0

/-- `parseInt(s, 10)` restricted to the base-10 numeral strings this module
stores: value of the leading digit run, `none` for `NaN`. -/
def jsParseInt (s : Str) : Option Nat :=
  if digitsHead s = [] then none else some (digitsVal (digitsHead s))

theorem digitChar_isDigit (d : Nat) (h : d < 10) : (digitChar d).isDigit = true := by
  interval_cases d <;> decide

theorem digitVal_digitChar (d : Nat) (h : d < 10) : digitVal (digitChar d) = d := by
  interval_cases d <;> decide

theorem natRepr_ne_nil (n : Nat) : natRepr n ≠ [] := by
  rw [natRepr_eq]
  split
  · simp
  · simp

theorem natRepr_all_digits (n : Nat) : ∀ c ∈ natRepr n, c.isDigit = true := by
  induction n using Nat.strong_induction_on with
  | _ n ih =>
    rw [natRepr_eq]
    split
    · next h => simpa using digitChar_isDigit n h
    · next h =>
      intro c hc
      rcases List.mem_append.1 hc with h1 | h1
      · exact ih (n / 10) (Nat.div_lt_self (by omega) (by omega)) c h1
      · simp only [List.mem_singleton] at h1
        subst h1
        exact digitChar_isDigit _ (Nat.mod_lt _ (by omega))

theorem digitsVal_append_singleton (s : Str) (c : Char) :
    digitsVal (s ++ [c]) = 10 * digitsVal s + digitVal c := by
  simp [digitsVal, List.foldl_append, Nat.mul_comm]

theorem digitsVal_natRepr (n : Nat) : digitsVal (natRepr n) = n := by
  induction n using Nat.strong_induction_on with
  | _ n ih =>
    rw [natRepr_eq]
    split
    · next h =>
      simp only [digitsVal, List.foldl]
      rw [digitVal_digitChar n h]
      omega
    · next h =>
      rw [digitsVal_append_singleton, ih (n / 10) (Nat.div_lt_self (by omega) (by omega)),
        digitVal_digitChar _ (Nat.mod_lt _ (by omega))]
      omega

theorem digitsHead_of_all_digits (s : Str) (h : ∀ c ∈ s, c.isDigit = true) :
    digitsHead s = s := by
  induction s with
  | nil => rfl
  | cons c cs ih =>
    simp only [digitsHead]
    rw [if_pos (h c (List.mem_cons_self c cs)), ih fun x hx => h x (List.mem_cons_of_mem c hx)]

theorem jsParseInt_natRepr (n : Nat) : jsParseInt (natRepr n) = some n := by
  unfold jsParseInt
  rw [digitsHead_of_all_digits _ (natRepr_all_digits n)]
  rw [if_neg (natRepr_ne_nil n), digitsVal_natRepr]

theorem natRepr_injective : Function.Injective natRepr := by
  intro a b h
  have := digitsVal_natRepr a
  rw [h, digitsVal_natRepr] at this
  omega

/-! ### The primitive key-value store

`expo-secure-store`, modelled as an association list.  `sset` overwrites,
`sdel` removes, `sget` looks up. -/

/-- Primitive key-value store state. -/
abbrev Store := List (Str × Str)

/-- `SecureStore.getItemAsync`. -/
def sget : Store → Str → Option Str
  | [], _ => none
  | (k, v) :: rest, key => if k = key then some v else sget rest key

/-- Remove every entry under a key. -/
def sdel : Store → Str → Store
  | [], _ => []
  | (k, v) :: rest, key => if k = key then sdel rest key else (k, v) :: sdel rest key

/-- `SecureStore.setItemAsync`: overwrite the entry under a key. -/
def sset (s : Store) (key v : Str) : Store := (key, v) :: sdel s key

theorem sget_sdel (s : Store) (key key' : Str) :
    sget (sdel s key) key' = if key' = key then none else sget s key' := by
  induction s with
  | nil => simp [sdel, sget]
  | cons p rest ih =>
    obtain ⟨k, v⟩ := p
    by_cases h1 : k = key
    · subst h1
      by_cases h2 : key' = k
      · subst h2
        simp [sdel, ih]
      · have hk : ¬ k = key' := fun hh => h2 hh.symm
        simp [sdel, sget, h2, ih, hk]
    · by_cases h2 : k = key'
      · have h3 : ¬ key' = key := fun hh => h1 (h2.trans hh)
        simp [sdel, sget, h1, h2, ih, h3]
      · simp [sdel, sget, h1, h2, ih]

theorem sget_sset (s : Store) (key v key' : Str) :
    sget (sset s key v) key' = if key' = key then some v else sget s key' := by
  unfold sset
  by_cases h : key' = key
  · simp [sget, h]
  · have h' : ¬ key = key' := fun hh => h hh.symm
    simp [sget, h, h', sget_sdel]

theorem sget_sset_self (s : Store) (key v : Str) : sget (sset s key v) key = some v := by
  simp [sget_sset]

theorem sget_sdel_self (s : Store) (key : Str) : sget (sdel s key) key = none := by
  simp [sget_sdel]

/-! ### Key derivation for chunked values

`storage.ts` derives the manifest key as `` `${key}_chunks` `` and the i-th
chunk key as `` `${key}_chunk_${i}` ``. -/

/-- The suffix `"_chunks"`. -/
def chunksSuffix : Str := ['_', 'c', 'h', 'u', 'n', 'k', 's']

/-- The suffix `"_chunk_"`. -/
def chunkSuffix : Str := ['_', 'c', 'h', 'u', 'n', 'k', '_']

/-- Manifest key for a chunked value: `` `${key}_chunks` ``. -/
def manifestKey (k : Str) : Str := k ++ chunksSuffix

/-- Key of chunk `i`: `` `${key}_chunk_${i}` ``. -/
def chunkKey (k : Str) (i : Nat) : Str := k ++ chunkSuffix ++ natRepr i

theorem manifestKey_ne_base (k : Str) : manifestKey k ≠ k := by
  intro h
  have := congrArg List.length h
  simp [manifestKey, chunksSuffix] at this

theorem chunkKey_ne_base (k : Str) (i : Nat) : chunkKey k i ≠ k := by
  intro h
  have := congrArg List.length h
  simp [chunkKey, chunkSuffix] at this

theorem chunkKey_ne_manifestKey (k k' : Str) (i : Nat) (hk : k.length = k'.length) :
    chunkKey k i ≠ manifestKey k' := by
  intro h
  have := congrArg List.length h
  have hpos : 0 < (natRepr i).length := List.length_pos.2 (natRepr_ne_nil i)
  simp [chunkKey, chunkSuffix, manifestKey, chunksSuffix] at this
  omega

theorem chunkKey_injective (k : Str) {i j : Nat} (h : chunkKey k i = chunkKey k j) :
    i = j := by
  unfold chunkKey at h
  rw [List.append_assoc, List.append_assoc] at h
  exact natRepr_injective (List.append_cancel_left (List.append_cancel_left h))

/-! ### The chunked storage layer (`nativeStorage` in `storage.ts`)

The delete operation of the primitive store may throw; `F key = true` means
`SecureStore.deleteItemAsync(key)` throws.  Reads and writes of
capacity-respecting values do not throw in the modelled regime. -/

/-- Structural worker for `chunksOf`; the fuel only bounds the recursion depth
(`chunksOfAux_congr`). -/
def chunksOfAux (fuel : Nat) (v : Str) : List Str :=
  match fuel with
  | 0 => []
  | fuel + 1 => if v = [] then [] else v.take 2000 :: chunksOfAux fuel (v.drop 2000)

/-- The chunk list built by `setItemAsync`'s slicing loop:
`for (let i = 0; i < value.length; i += 2000) chunks.push(value.slice(i, i + 2000))`;
its recursion equation is `chunksOf_eq`. -/
def chunksOf (v : Str) : List Str := chunksOfAux (v.length + 1) v

theorem chunksOfAux_congr (fuel₁ : Nat) :
    ∀ fuel₂ v, v.length < fuel₁ → v.length < fuel₂ →
      chunksOfAux fuel₁ v = chunksOfAux fuel₂ v := by
  induction fuel₁ with
  | zero => omega
  | succ fuel₁ ih =>
    intro fuel₂ v h1 h2
    match fuel₂, h2 with
    | fuel₂ + 1, _ =>
      simp only [chunksOfAux]
      split
      · rfl
      · next hne =>
        have hpos : 0 < v.length := List.length_pos.2 hne
        rw [ih fuel₂ (v.drop 2000) (by simp; omega) (by simp; omega)]

theorem chunksOf_eq (v : Str) :
    chunksOf v = if v = [] then [] else v.take 2000 :: chunksOf (v.drop 2000) := by
  unfold chunksOf
  conv_lhs => rw [chunksOfAux]
  split
  · rfl
  · next hne =>
    have hpos : 0 < v.length := List.length_pos.2 hne
    rw [chunksOfAux_congr v.length ((v.drop 2000).length + 1) (v.drop 2000)
      (by simp; omega) (by simp)]

/-- The reconstruction loop of `getItemAsync`: concatenate chunks `0 .. n-1`,
appending the empty string where a chunk is missing. -/
def readChunks (s : Store) (k : Str) : Nat → Str
  | 0 => []
  | n + 1 =>
    readChunks s k n ++
      (match sget s (chunkKey k n) with
       | some c => c
       | none => [])

/-- The write loop of `setItemAsync`: store chunk `i`, `i+1`, ... -/
def writeChunks : Store → Str → Nat → List Str → Store
  | s, _, _, [] => s
  | s, k, i, c :: rest => writeChunks (sset s (chunkKey k i) c) k (i + 1) rest

/-- The delete loop of `deleteChunks`: try to delete chunks `0 .. n-1`,
ignoring a throwing delete (`try/catch` with an empty handler). -/
def delChunkLoop (F : Str → Bool) (s : Store) (k : Str) : Nat → Store
  | 0 => s
  | n + 1 =>
    let s' := delChunkLoop F s k n
    if F (chunkKey k n) then s' else sdel s' (chunkKey k n)

/-- `nativeStorage.deleteChunks`: read the manifest; if present, delete every
chunk it records (ignoring per-chunk failures) and then the manifest itself.
Any failure is swallowed (`catch` ignoring errors during cleanup), so the
function is total: a failed delete leaves the entry in place. -/
def deleteChunks (F : Str → Bool) (s : Store) (k : Str) : Store :=
  match sget s (manifestKey k) with
  | none => s
  | some info =>
    let n := (jsParseInt info).getD 0
    let s' := delChunkLoop F s k n
    if F (manifestKey k) then s' else sdel s' (manifestKey k)

/-- `nativeStorage.getItemAsync`: if a manifest is present, parse it as a count
and concatenate chunks `0 .. count-1` (a `NaN` count runs the loop zero times);
otherwise read the key directly. -/
def getItemAsync (s : Store) (k : Str) : Option Str :=
  match sget s (manifestKey k) with
  | some info => some (readChunks s k ((jsParseInt info).getD 0))
  | none => sget s k

/-- `nativeStorage.setItemAsync`: values longer than 2000 are split into
2000-sized chunks — write the manifest, write each chunk, then best-effort
delete any old direct entry (`try/catch` ignoring a missing key).  Shorter
values delete any existing chunks and are stored directly. -/
def setItemAsync (F : Str → Bool) (s : Store) (k v : Str) : Store :=
  if 2000 < v.length then
    let cs := chunksOf v
    let s1 := sset s (manifestKey k) (natRepr cs.length)
    let s2 := writeChunks s1 k 0 cs
    if F k then s2 else sdel s2 k
  else
    sset (deleteChunks F s k) k v

/-- `nativeStorage.deleteItemAsync`: delete the direct entry, then the chunks.
The surrounding `try/catch` rethrows, so a throwing delete of the direct entry
surfaces to the caller; `deleteChunks` itself never throws. -/
def deleteItemAsync (F : Str → Bool) (s : Store) (k : Str) : Except Unit Store :=
  if F k then Except.error ()
  else Except.ok (deleteChunks F (sdel s k) k)

/-! ### Reasoning principles for the chunked layer -/

theorem chunksOf_flatten (v : Str) : (chunksOf v).flatten = v := by
  suffices h : ∀ n (v : Str), v.length = n → (chunksOf v).flatten = v from h v.length v rfl
  intro n
  induction n using Nat.strong_induction_on with
  | _ n ih =>
    intro v hn
    subst hn
    rw [chunksOf_eq]
    split
    · next hv => simp [hv]
    · next hv =>
      have hpos : 0 < v.length := List.length_pos.2 hv
      rw [List.flatten_cons, ih (v.drop 2000).length (by simp; omega) _ rfl,
        List.take_append_drop]

theorem sget_ite_sdel (c : Prop) [Decidable c] (s : Store) (k key : Str) (h : key ≠ k) :
    sget (if c then s else sdel s k) key = sget s key := by
  split <;> simp [sget_sdel, h]

theorem sget_writeChunks_of_ne (cs : List Str) (s : Store) (k : Str) (i : Nat) (key : Str)
    (h : ∀ j, j < cs.length → key ≠ chunkKey k (i + j)) :
    sget (writeChunks s k i cs) key = sget s key := by
  induction cs generalizing s i with
  | nil => rfl
  | cons c rest ih =>
    rw [writeChunks, ih _ (i + 1) fun j hj => by
      have := h (j + 1) (by simpa using Nat.succ_lt_succ hj)
      simpa [Nat.add_assoc, Nat.add_comm 1 j] using this]
    rw [sget_sset, if_neg (by simpa using h 0 (by simp))]

theorem sget_writeChunks_get (cs : List Str) (s : Store) (k : Str) (i j : Nat)
    (hj : j < cs.length) :
    sget (writeChunks s k i cs) (chunkKey k (i + j)) = some cs[j] := by
  induction cs generalizing s i j with
  | nil => simp at hj
  | cons c rest ih =>
    cases j with
    | zero =>
      rw [writeChunks,
        sget_writeChunks_of_ne rest _ k (i + 1) _ fun j' _hj' heq => by
          have := chunkKey_injective k heq
          omega]
      simp [sget_sset]
    | succ j' =>
      rw [writeChunks, show i + (j' + 1) = (i + 1) + j' by omega,
        ih (sset s (chunkKey k i) c) (i + 1) j' (by simpa using hj)]
      simp

theorem sget_delChunkLoop_of_ne (F : Str → Bool) (s : Store) (k : Str) (n : Nat) (key : Str)
    (h : ∀ j, j < n → key ≠ chunkKey k j) :
    sget (delChunkLoop F s k n) key = sget s key := by
  induction n with
  | zero => rfl
  | succ n ih =>
    have ih' := ih fun j hj => h j (by omega)
    by_cases hF : F (chunkKey k n) = true
    · simp [delChunkLoop, hF, ih']
    · simp only [delChunkLoop, if_neg hF]
      rw [sget_sdel, if_neg (h n (by omega)), ih']

theorem sget_delChunkLoop_none (s : Store) (k : Str) (n j : Nat) (hj : j < n) :
    sget (delChunkLoop (fun _ => false) s k n) (chunkKey k j) = none := by
  induction n with
  | zero => omega
  | succ n ih =>
    simp only [delChunkLoop, if_neg (by simp : ¬ ((fun _ : Str => false) (chunkKey k n) = true))]
    rw [sget_sdel]
    rcases Nat.lt_succ_iff_lt_or_eq.1 hj with h | h
    · split
      · rfl
      · exact ih h
    · subst h; simp

theorem sget_setItemAsync_manifest (F : Str → Bool) (s : Store) (k v : Str)
    (hv : 2000 < v.length) :
    sget (setItemAsync F s k v) (manifestKey k) = some (natRepr (chunksOf v).length) := by
  unfold setItemAsync
  rw [if_pos hv]
  simp only []
  rw [sget_ite_sdel _ _ _ _ (manifestKey_ne_base k),
    sget_writeChunks_of_ne _ _ _ _ _
      (fun j _hj => (chunkKey_ne_manifestKey k k (0 + j) rfl).symm),
    sget_sset_self]

theorem sget_setItemAsync_chunk (F : Str → Bool) (s : Store) (k v : Str)
    (hv : 2000 < v.length) (j : Nat) (hj : j < (chunksOf v).length) :
    sget (setItemAsync F s k v) (chunkKey k j) = some (chunksOf v)[j] := by
  unfold setItemAsync
  rw [if_pos hv]
  simp only []
  rw [sget_ite_sdel _ _ _ _ (chunkKey_ne_base k j)]
  have := sget_writeChunks_get (chunksOf v) (sset s (manifestKey k) (natRepr (chunksOf v).length))
    k 0 j hj
  simpa using this

theorem readChunks_eq_flatten_take (s : Store) (k : Str) (cs : List Str) (n : Nat)
    (hn : n ≤ cs.length) (h : ∀ j, (hj : j < cs.length) → sget s (chunkKey k j) = some cs[j]) :
    readChunks s k n = (cs.take n).flatten := by
  induction n with
  | zero => rfl
  | succ n ih =>
    rw [readChunks, ih (by omega), h n (by omega), List.take_succ,
      List.getElem?_eq_getElem (show n < cs.length by omega), Option.toList_some,
      List.flatten_append, List.flatten_cons, List.flatten_nil, List.append_nil]

theorem readChunks_eq_filterMap (s : Store) (k : Str) (n : Nat) :
    readChunks s k n = ((List.range n).filterMap (fun j => sget s (chunkKey k j))).flatten := by
  induction n with
  | zero => rfl
  | succ n ih =>
    rw [readChunks, List.range_succ, List.filterMap_append, List.flatten_append, ih]
    cases h : sget s (chunkKey k n) <;> simp [h]

/-- Claim C1: for every key `k` and every value `V` with `len(V) > 2000`,
`get(k)` after `put(k, V)` returns exactly `V` — over any prior store state
(so in particular after a previous put of a different, possibly larger,
chunked value for `k`) and any pattern `F` of delete failures on the
best-effort cleanup of the old direct entry. -/
theorem get_after_chunked_put (F : Str → Bool) (s : Store) (k v : Str)
    (hv : 2000 < v.length) :
    getItemAsync (setItemAsync F s k v) k = some v := by
  unfold getItemAsync
  rw [sget_setItemAsync_manifest F s k v hv]
  simp only [jsParseInt_natRepr, Option.getD_some]
  rw [readChunks_eq_flatten_take _ _ (chunksOf v) _ le_rfl
      (fun j hj => sget_setItemAsync_chunk F s k v hv j hj),
    List.take_of_length_le le_rfl, chunksOf_flatten]

/-- Witness for C1 at a value whose length 4000 is an exact multiple of the
chunk size, put over a store already holding a larger chunked value for `k`. -/
theorem get_after_chunked_put_witness :
    2000 < (List.replicate 4000 'a' : Str).length ∧
    getItemAsync
      (setItemAsync (fun _ => false)
        (setItemAsync (fun _ => false) [] (str "k") (List.replicate 4001 'b'))
        (str "k") (List.replicate 4000 'a'))
      (str "k") = some (List.replicate 4000 'a') :=
  ⟨by rw [List.length_replicate]; omega,
    get_after_chunked_put (fun _ => false)
      (setItemAsync (fun _ => false) [] (str "k") (List.replicate 4001 'b'))
      (str "k") (List.replicate 4000 'a') (by rw [List.length_replicate]; omega)⟩

/-- Claim C9: when `get(k)` finds a chunk manifest recording `n` chunks, it
returns (without failing and without returning absent) the concatenation, in
index order, of exactly the chunk entries that are present, dropping missing
ones. -/
theorem getItemAsync_with_manifest (s : Store) (k info : Str) (n : Nat)
    (hm : sget s (manifestKey k) = some info) (hn : jsParseInt info = some n) :
    getItemAsync s k =
      some (((List.range n).filterMap (fun j => sget s (chunkKey k j))).flatten) := by
  unfold getItemAsync
  rw [hm]
  simp [hn, readChunks_eq_filterMap]

/-- Claim C7 (amended): after a chunked `put(k, V)`, `delete(k)` succeeds even
when individual chunk deletions fail (failures are suppressed as long as the
delete of the direct entry itself does not throw), and — when no delete
fails — it removes the direct entry, the manifest, and every chunk recorded
by that manifest, i.e. `k_chunk_i` for `i` below the last put's chunk count.
Chunk entries with indices at or above that count, left over from an earlier
larger chunked put, are not touched (see the counterexample for the original
"for any i" claim). -/
theorem delete_after_chunked_put (F : Str → Bool) (s : Store) (k v : Str)
    (hv : 2000 < v.length) (hF : F k = false) :
    (∃ s', deleteItemAsync F (setItemAsync F s k v) k = Except.ok s') ∧
    ∀ s', deleteItemAsync (fun _ => false) (setItemAsync (fun _ => false) s k v) k =
        Except.ok s' →
      sget s' k = none ∧ sget s' (manifestKey k) = none ∧
      ∀ i, i < (chunksOf v).length → sget s' (chunkKey k i) = none := by
  constructor
  · refine ⟨deleteChunks F (sdel (setItemAsync F s k v) k) k, ?_⟩
    unfold deleteItemAsync
    rw [if_neg (by simp [hF])]
  · intro s' hs'
    unfold deleteItemAsync at hs'
    rw [if_neg (by simp)] at hs'
    set F0 : Str → Bool := fun _ => false with hF0
    set s2 := setItemAsync F0 s k v with hs2
    have hman : sget (sdel s2 k) (manifestKey k) = some (natRepr (chunksOf v).length) := by
      rw [sget_sdel, if_neg (manifestKey_ne_base k), sget_setItemAsync_manifest F0 s k v hv]
    have hrw : deleteChunks F0 (sdel s2 k) k =
        sdel (delChunkLoop F0 (sdel s2 k) k (chunksOf v).length) (manifestKey k) := by
      unfold deleteChunks
      rw [hman]
      simp [jsParseInt_natRepr]
    rw [hrw] at hs'
    obtain rfl : sdel (delChunkLoop F0 (sdel s2 k) k (chunksOf v).length) (manifestKey k) = s' :=
      Except.ok.inj hs'
    refine ⟨?_, ?_, ?_⟩
    · rw [sget_sdel, if_neg (fun hh => manifestKey_ne_base k hh.symm),
        sget_delChunkLoop_of_ne _ _ _ _ _ (fun j _hj => fun hh => chunkKey_ne_base k j hh.symm),
        sget_sdel_self]
    · exact sget_sdel_self _ _
    · intro i hi
      rw [sget_sdel, if_neg (chunkKey_ne_manifestKey k k i rfl)]
      exact sget_delChunkLoop_none _ _ _ i hi

/-- Witness for C7's amended theorem at a concrete chunked value. -/
theorem delete_after_chunked_put_witness :
    2000 < (List.replicate 2001 'a' : Str).length ∧
    ((fun _ : Str => false) (str "k") = false) ∧
    ∃ s', deleteItemAsync (fun _ => false)
        (setItemAsync (fun _ => false) [] (str "k") (List.replicate 2001 'a'))
        (str "k") = Except.ok s' :=
  ⟨by rw [List.length_replicate]; omega, rfl,
    (delete_after_chunked_put (fun _ => false) [] (str "k") (List.replicate 2001 'a')
      (by rw [List.length_replicate]; omega) rfl).1⟩

/-- A chunked `setItemAsync` leaves chunk entries at or above its own chunk
count untouched (the chunked branch performs no chunk cleanup). -/
theorem sget_setItemAsync_chunk_high (F : Str → Bool) (s : Store) (k v : Str)
    (hv : 2000 < v.length) (i : Nat) (hi : (chunksOf v).length ≤ i) :
    sget (setItemAsync F s k v) (chunkKey k i) = sget s (chunkKey k i) := by
  unfold setItemAsync
  rw [if_pos hv]
  simp only []
  rw [sget_ite_sdel _ _ _ _ (chunkKey_ne_base k i),
    sget_writeChunks_of_ne _ _ _ _ _ (fun j hj heq => by
      have := chunkKey_injective k heq
      omega),
    sget_sset, if_neg (chunkKey_ne_manifestKey k k i rfl)]

theorem chunksOf_replicate_big (m : Nat) (c : Char) (hm : 2000 < m) :
    chunksOf (List.replicate m c) =
      List.replicate 2000 c :: chunksOf (List.replicate (m - 2000) c) := by
  rw [chunksOf_eq, if_neg (by simp only [List.replicate_eq_nil_iff]; omega),
    List.take_replicate, List.drop_replicate]
  congr 2
  omega

theorem chunksOf_replicate_small (m : Nat) (c : Char) (h0 : 0 < m) (hm : m ≤ 2000) :
    chunksOf (List.replicate m c) = [List.replicate m c] := by
  rw [chunksOf_eq, if_neg (by simp only [List.replicate_eq_nil_iff]; omega),
    List.take_replicate, List.drop_replicate, Nat.min_eq_right hm,
    show m - 2000 = 0 by omega]
  rw [show (List.replicate 0 c : Str) = [] from rfl, chunksOf_eq]
  simp

theorem chunksOf_replicate_4001 (c : Char) :
    chunksOf (List.replicate 4001 c) =
      [List.replicate 2000 c, List.replicate 2000 c, [c]] := by
  rw [chunksOf_replicate_big 4001 c (by omega),
    show (4001 : Nat) - 2000 = 2001 from rfl,
    chunksOf_replicate_big 2001 c (by omega),
    show (2001 : Nat) - 2000 = 1 from rfl,
    chunksOf_replicate_small 1 c (by omega) (by omega), List.replicate_one]

theorem chunksOf_replicate_4001_length (c : Char) :
    (chunksOf (List.replicate 4001 c)).length = 3 := by
  rw [chunksOf_replicate_4001]
  rfl

/-- The store left by: chunked put of 4001 characters under `"k"` (3 chunks),
then chunked put of 2001 characters under `"k"` (2 chunks), then `delete("k")`. -/
def staleChunkStore : Store :=
  match deleteItemAsync (fun _ => false)
      (setItemAsync (fun _ => false)
        (setItemAsync (fun _ => false) [] (str "k") (List.replicate 4001 'a'))
        (str "k") (List.replicate 2001 'b'))
      (str "k") with
  | Except.ok s => s
  | Except.error _ => []

/-- Counterexample to C7 as stated: the last put under `"k"` was chunked
(2001 characters, 2 chunks), `delete("k")` completed without error, yet the
entry `k_chunk_2` — stale from the preceding 3-chunk put — is still present
with its old 1-character content. -/
theorem delete_after_chunked_put_cex :
    (deleteItemAsync (fun _ => false)
      (setItemAsync (fun _ => false)
        (setItemAsync (fun _ => false) [] (str "k") (List.replicate 4001 'a'))
        (str "k") (List.replicate 2001 'b'))
      (str "k")).isOk = true ∧
    sget staleChunkStore (chunkKey (str "k") 2) = some ['a'] := by
  have hv1 : 2000 < (List.replicate 4001 'a' : Str).length := by
    rw [List.length_replicate]; omega
  have hv2 : 2000 < (List.replicate 2001 'b' : Str).length := by
    rw [List.length_replicate]; omega
  set F0 : Str → Bool := fun _ => false with hF0
  set kk : Str := str "k" with hkk
  set S1 : Store := setItemAsync F0 [] kk (List.replicate 4001 'a') with hS1
  set S2 : Store := setItemAsync F0 S1 kk (List.replicate 2001 'b') with hS2
  have hlen2 : (chunksOf (List.replicate 2001 'b' : Str)).length = 2 := by
    rw [chunksOf_replicate_big 2001 'b' (by omega),
      show (2001 : Nat) - 2000 = 1 from rfl,
      chunksOf_replicate_small 1 'b' (by omega) (by omega)]
    rfl
  constructor
  · unfold deleteItemAsync
    rw [if_neg (by simp [hF0])]
    rfl
  · have hstale : staleChunkStore = deleteChunks F0 (sdel S2 kk) kk := by
      unfold staleChunkStore
      rw [← hF0, ← hkk, ← hS1, ← hS2]
      unfold deleteItemAsync
      rw [if_neg (by simp [hF0])]
    have hman : sget (sdel S2 kk) (manifestKey kk) = some (natRepr 2) := by
      rw [sget_sdel, if_neg (manifestKey_ne_base kk), hS2,
        sget_setItemAsync_manifest F0 S1 kk _ hv2, hlen2]
    rw [hstale]
    unfold deleteChunks
    rw [hman]
    simp only [jsParseInt_natRepr, Option.getD_some]
    rw [if_neg (by simp [hF0])]
    rw [sget_sdel, if_neg (chunkKey_ne_manifestKey kk kk 2 rfl)]
    rw [sget_delChunkLoop_of_ne _ _ _ _ _ (fun j hj heq => by
      have := chunkKey_injective kk heq
      omega)]
    rw [sget_sdel, if_neg (chunkKey_ne_base kk 2)]
    rw [hS2, sget_setItemAsync_chunk_high F0 S1 kk _ hv2 2 (by rw [hlen2])]
    rw [hS1, sget_setItemAsync_chunk F0 [] kk _ hv1 2
      (by rw [chunksOf_replicate_4001_length]; omega)]
    rw [← List.getElem?_eq_getElem, chunksOf_replicate_4001]
    rfl

/-- A store with a 3-chunk manifest for `"k"` whose middle chunk is missing. -/
def gappyStore : Store :=
  [(manifestKey (str "k"), natRepr 3),
   (chunkKey (str "k") 0, str "ab"),
   (chunkKey (str "k") 2, str "c")]

/-- Witness for C9: a 3-chunk manifest with chunk 1 missing yields the
concatenation `"ab" ++ "c"` of the present chunks. -/
theorem getItemAsync_with_manifest_witness :
    sget gappyStore (manifestKey (str "k")) = some (natRepr 3) ∧
    jsParseInt (natRepr 3) = some 3 ∧
    getItemAsync gappyStore (str "k") =
      some (((List.range 3).filterMap (fun j => sget gappyStore (chunkKey (str "k") j))).flatten) ∧
    getItemAsync gappyStore (str "k") = some (str "abc") :=
  ⟨by decide, by decide,
    getItemAsync_with_manifest gappyStore (str "k") (natRepr 3) 3 (by decide) (by decide),
    by decide⟩

/-! ### Analysis terms and derived compliance statistics
(`SessionContext.tsx`, `complianceStats`)

Optional / nullable TypeScript fields are `Option`; fields only tested for
truthiness (where `undefined` and `false` act alike) are plain `Bool`.
JavaScript numbers are modelled as rationals. -/

/-- A term of the active analysis (`FrontendAnalysisTerm`), restricted to the
fields the verified operations read. -/
structure FrontendAnalysisTerm where
  term_id : Str
  term_text : Str
  is_valid_sharia : Bool
  isUserConfirmed : Bool
  isReviewedSuggestionValid : Option Bool
  expert_override_is_valid_sharia : Option Bool
  has_expert_feedback : Bool
  currentQaAnswer : Option Str
  lastModified : Option Str
  interactionCount : Nat
deriving DecidableEq

/-- The filter predicate of `complianceStats`:
`t.expert_override_is_valid_sharia ?? (t.isUserConfirmed ?
 (t.isReviewedSuggestionValid ?? true) : t.is_valid_sharia)`. -/
def termEffectiveCompliant (t : FrontendAnalysisTerm) : Bool :=
  match t.expert_override_is_valid_sharia with
  | some b => b
  | none =>
    if t.isUserConfirmed then t.isReviewedSuggestionValid.getD true else t.is_valid_sharia

/-- `ComplianceStats` as computed by the context. -/
structure ComplianceStats where
  totalTerms : Nat
  currentUserEffectiveCompliantCount : Nat
  currentUserEffectiveNonCompliantCount : Nat
  overallCompliancePercentage : ℚ
  expertReviewedTerms : Nat
  userModifiedTerms : Nat
deriving DecidableEq

/-- The `complianceStats` computation of `SessionContext.tsx` on a term list. -/
def complianceStats (terms : List FrontendAnalysisTerm) : ComplianceStats :=
  if terms.length = 0 then
    { totalTerms := 0
      currentUserEffectiveCompliantCount := 0
      currentUserEffectiveNonCompliantCount := 0
      overallCompliancePercentage := 0
      expertReviewedTerms := 0
      userModifiedTerms := 0 }
  else
    let compliantCount := (terms.filter termEffectiveCompliant).length
    { totalTerms := terms.length
      currentUserEffectiveCompliantCount := compliantCount
      currentUserEffectiveNonCompliantCount := terms.length - compliantCount
      overallCompliancePercentage := (compliantCount : ℚ) / (terms.length : ℚ) * 100
      expertReviewedTerms := (terms.filter (fun t => t.has_expert_feedback)).length
      userModifiedTerms := (terms.filter (fun t => t.isUserConfirmed)).length }

/-- The `useMemo` wrapper: a `null` term list yields `null` stats. -/
def complianceStatsOpt : Option (List FrontendAnalysisTerm) → Option ComplianceStats
  | none => none
  | some ts => some (complianceStats ts)

/-- The effective verdict as worded by the spec: (1) expert override verdict if
present; else (2) if the user confirmed a modification, the reviewed-suggestion
validity if present else `true`; else (3) the original analysis verdict. -/
def specEffectiveVerdict (t : FrontendAnalysisTerm) : Bool :=
  match t.expert_override_is_valid_sharia with
  | some expertVerdict => expertVerdict
  | none =>
    if t.isUserConfirmed then
      match t.isReviewedSuggestionValid with
      | some reviewedValid => reviewedValid
      | none => true
    else t.is_valid_sharia

/-- The reference statistics as worded by the spec and claim C2. -/
def specComplianceStats (terms : List FrontendAnalysisTerm) : ComplianceStats :=
  let compliant := terms.countP (fun t => specEffectiveVerdict t)
  { totalTerms := terms.length
    currentUserEffectiveCompliantCount := compliant
    currentUserEffectiveNonCompliantCount := terms.length - compliant
    overallCompliancePercentage :=
      if terms.length = 0 then 0 else (compliant : ℚ) / (terms.length : ℚ) * 100
    expertReviewedTerms := terms.countP (fun t => t.has_expert_feedback)
    userModifiedTerms := terms.countP (fun t => t.isUserConfirmed) }

theorem termEffectiveCompliant_eq_spec (t : FrontendAnalysisTerm) :
    termEffectiveCompliant t = specEffectiveVerdict t := by
  unfold termEffectiveCompliant specEffectiveVerdict
  cases t.expert_override_is_valid_sharia <;> cases t.isReviewedSuggestionValid <;>
    simp [Option.getD]

/-- Claim C2: the derived compliance statistics equal the reference definition —
the effective verdict is the expert override when present, else the
reviewed-suggestion validity (default `true`) when the user confirmed, else the
original verdict; the compliant count is the number of terms with effective
verdict true; the percentage is `compliant / total * 100`; and for an empty
term list every count and the percentage are zero.  A term with expert override
`false` is counted non-compliant even when user-confirmed with a valid review. -/
theorem complianceStats_spec (terms : List FrontendAnalysisTerm) :
    complianceStats terms = specComplianceStats terms ∧
    (∀ t : FrontendAnalysisTerm, t.expert_override_is_valid_sharia = some false →
      termEffectiveCompliant t = false) ∧
    complianceStats [] =
      { totalTerms := 0
        currentUserEffectiveCompliantCount := 0
        currentUserEffectiveNonCompliantCount := 0
        overallCompliancePercentage := 0
        expertReviewedTerms := 0
        userModifiedTerms := 0 } := by
  refine ⟨?_, ?_, ?_⟩
  · have hfilter : terms.filter (fun t => specEffectiveVerdict t) =
        terms.filter termEffectiveCompliant := by
      apply List.filter_congr
      intro t _
      exact (termEffectiveCompliant_eq_spec t).symm
    unfold complianceStats specComplianceStats
    by_cases h : terms.length = 0
    · rw [if_pos h]
      rw [List.length_eq_zero] at h
      subst h
      simp
    · rw [if_neg h]
      simp only [List.countP_eq_length_filter, hfilter, if_neg h]
  · intro t ht
    unfold termEffectiveCompliant
    rw [ht]
  · rfl

/-- Witness for C2's expert-override precedence at a concrete term that is
user-confirmed with a valid reviewed suggestion but overridden to `false`. -/
theorem complianceStats_spec_witness :
    (let t : FrontendAnalysisTerm :=
      { term_id := str "t1", term_text := str "text", is_valid_sharia := true
        isUserConfirmed := true, isReviewedSuggestionValid := some true
        expert_override_is_valid_sharia := some false, has_expert_feedback := true
        currentQaAnswer := none, lastModified := none, interactionCount := 0 }
     t.expert_override_is_valid_sharia = some false ∧ termEffectiveCompliant t = false) :=
  ⟨rfl, (complianceStats_spec []).2.1 _ rfl⟩

/-! ### The interaction log and the local session repository
(`SessionContext.tsx`: `addInteraction`, `getSessionInteractions`,
`saveSessionLocally`)

`JSON.stringify` is modelled concretely for the shapes `saveSessionLocally`
serializes: key order follows object-literal construction order, fields whose
value is `undefined` (`none`) are omitted, and the numeric fields hold the
integral values this data carries (serialized by `natRepr`). -/

/-- Kind of a logged interaction. -/
inductive InteractionType where
  | question_asked
  | term_modified
  | contract_generated
  | expert_feedback
deriving DecidableEq

/-- A `SessionInteraction` record; the untyped `data` payload is modelled as
key-value pairs (its contents are never inspected by the verified code). -/
structure SessionInteraction where
  sessionId : Str
  timestamp : Str
  type : InteractionType
  termId : Option Str
  data : List (Str × Str)
deriving DecidableEq

/-- `getSessionInteractions`: the interactions of one session. -/
def getSessionInteractions (interactions : List SessionInteraction) (sid : Str) :
    List SessionInteraction :=
  interactions.filter (fun i => decide (i.sessionId = sid))

/-- A term as delivered by the API (`ApiAnalysisTerm`), restricted to the
fields `saveSessionLocally` projects plus the term text. -/
structure ApiAnalysisTerm where
  term_id : Str
  term_text : Str
  is_valid_sharia : Bool
  is_confirmed_by_user : Option Bool
  has_expert_feedback : Option Bool
  expert_override_is_valid_sharia : Option Bool
deriving DecidableEq

/-- The per-term projection stored by `saveSessionLocally`
(`analysisResults.map(term => ({ term_id, is_valid_sharia, is_confirmed_by_user,
has_expert_feedback, expert_override_is_valid_sharia }))`). -/
structure StoredTerm where
  term_id : Str
  is_valid_sharia : Bool
  is_confirmed_by_user : Option Bool
  has_expert_feedback : Option Bool
  expert_override_is_valid_sharia : Option Bool
deriving DecidableEq

def projectTerm (t : ApiAnalysisTerm) : StoredTerm :=
  { term_id := t.term_id
    is_valid_sharia := t.is_valid_sharia
    is_confirmed_by_user := t.is_confirmed_by_user
    has_expert_feedback := t.has_expert_feedback
    expert_override_is_valid_sharia := t.expert_override_is_valid_sharia }

/-- `SessionDetailsApiResponse`, restricted to the fields `saveSessionLocally`
reads.  `analysis_results` is `none` when the response carries a non-array
value (`Array.isArray` guard). -/
structure SessionDetailsApiResponse where
  _id : Str
  session_id : Str
  original_filename : Str
  analysis_timestamp : Str
  compliance_percentage : Nat
  detected_contract_language : Str
  original_format : Str
  analysis_results : Option (List ApiAnalysisTerm)
deriving DecidableEq

/-- A record of the persisted session list.  Entries parsed back from an
earlier *minimal*-tier save lack the `Option` fields. -/
structure StoredSession where
  _id : Option Str
  session_id : Str
  original_filename : Str
  analysis_timestamp : Str
  compliance_percentage : Nat
  detected_contract_language : Option Str
  original_format : Option Str
  analysis_results : Option (List StoredTerm)
  totalInteractions : Option Nat
  lastInteractionTime : Option Str
deriving DecidableEq

/-- The `optimizedSessionData` object built by `saveSessionLocally` (`now` is
`new Date().toISOString()`). -/
def optimizeSessionData (sd : SessionDetailsApiResponse)
    (interactions : List SessionInteraction) (now : Str) : StoredSession :=
  { _id := some sd._id
    session_id := sd.session_id
    original_filename := sd.original_filename
    analysis_timestamp := sd.analysis_timestamp
    compliance_percentage := sd.compliance_percentage
    detected_contract_language := some sd.detected_contract_language
    original_format := some sd.original_format
    analysis_results := some ((sd.analysis_results.getD []).map projectTerm)
    totalInteractions := some (getSessionInteractions interactions sd.session_id).length
    lastInteractionTime := some now }

/-- Lines 297–308 of `SessionContext.tsx`: replace in place when the identifier
exists (`findIndex` ≥ 0), else prepend; then keep only the first 20 entries. -/
def upsertSession (sessions : List StoredSession) (opt : StoredSession) :
    List StoredSession :=
  match sessions.findIdx? (fun s => decide (s.session_id = opt.session_id)) with
  | some i => (sessions.set i opt).take 20
  | none => (opt :: sessions).take 20

/-- The minimal per-record projection of lines 315–322 (`'f' in session ?
session.f : default` reads of possibly-absent fields). -/
def minimalProjection (s : StoredSession) : StoredSession :=
  { _id := none
    session_id := s.session_id
    original_filename := s.original_filename
    analysis_timestamp := s.analysis_timestamp
    compliance_percentage := s.compliance_percentage
    detected_contract_language := none
    original_format := none
    analysis_results := none
    totalInteractions := some (s.totalInteractions.getD 0)
    lastInteractionTime := some (s.lastInteractionTime.getD []) }

/-! #### `JSON.stringify` for the serialized shapes -/

/-- An opening brace character. -/
def lbrace : Char := '\x7b'

/-- A closing brace character. -/
def rbrace : Char := '\x7d'

/-- Lowercase hexadecimal digit, for control-character escapes. -/
def hexDigitChar : Nat → Char
  | 0 => '0' | 1 => '1' | 2 => '2' | 3 => '3' | 4 => '4' | 5 => '5' | 6 => '6'
  | 7 => '7' | 8 => '8' | 9 => '9' | 10 => 'a' | 11 => 'b' | 12 => 'c' | 13 => 'd'
  | 14 => 'e' | _ => 'f'

/-- The escape `JSON.stringify` applies to one string character. -/
def jsonEscapeChar (c : Char) : Str :=
  if c = '"' then ['\\', '"']
  else if c = '\\' then ['\\', '\\']
  else if c = '\x08' then ['\\', 'b']
  else if c = '\x0c' then ['\\', 'f']
  else if c = '\n' then ['\\', 'n']
  else if c = '\x0d' then ['\\', 'r']
  else if c = '\t' then ['\\', 't']
  else if c.toNat < 32 then
    ['\\', 'u', '0', '0', hexDigitChar (c.toNat / 16), hexDigitChar (c.toNat % 16)]
  else [c]

/-- A JSON string literal. -/
def jsonQuote (s : Str) : Str := '"' :: (s.map jsonEscapeChar).flatten ++ ['"']

/-- A JSON boolean. -/
def jsonBool : Bool → Str
  | true => str "true"
  | false => str "false"

/-- Comma-join serialized members. -/
def joinComma : List Str → Str
  | [] => []
  | [x] => x
  | x :: xs => x ++ ',' :: joinComma xs

/-- A JSON object from its (already serialized) present fields, in insertion
order. -/
def jsonObj (fields : List Str) : Str := lbrace :: joinComma fields ++ [rbrace]

/-- A JSON array. -/
def jsonArr (elems : List Str) : Str := '[' :: joinComma elems ++ [']']

/-- One `name:value` field. -/
def jsonField (name : String) (v : Str) : Str := jsonQuote (str name) ++ ':' :: v

/-- A field omitted when its value is `undefined`. -/
def optField (name : String) : Option Str → List Str
  | none => []
  | some v => [jsonField name v]

def serializeStoredTerm (t : StoredTerm) : Str :=
  jsonObj
    ([jsonField "term_id" (jsonQuote t.term_id),
      jsonField "is_valid_sharia" (jsonBool t.is_valid_sharia)] ++
     optField "is_confirmed_by_user" (t.is_confirmed_by_user.map jsonBool) ++
     optField "has_expert_feedback" (t.has_expert_feedback.map jsonBool) ++
     optField "expert_override_is_valid_sharia"
       (t.expert_override_is_valid_sharia.map jsonBool))

def serializeStoredSession (s : StoredSession) : Str :=
  jsonObj
    (optField "_id" (s._id.map jsonQuote) ++
     [jsonField "session_id" (jsonQuote s.session_id),
      jsonField "original_filename" (jsonQuote s.original_filename),
      jsonField "analysis_timestamp" (jsonQuote s.analysis_timestamp),
      jsonField "compliance_percentage" (natRepr s.compliance_percentage)] ++
     optField "detected_contract_language" (s.detected_contract_language.map jsonQuote) ++
     optField "original_format" (s.original_format.map jsonQuote) ++
     optField "analysis_results"
       (s.analysis_results.map (fun ts => jsonArr (ts.map serializeStoredTerm))) ++
     optField "totalInteractions" (s.totalInteractions.map natRepr) ++
     optField "lastInteractionTime" (s.lastInteractionTime.map jsonQuote))

/-- `JSON.stringify(updatedSessions)`. -/
def serializeSessions (l : List StoredSession) : Str :=
  jsonArr (l.map serializeStoredSession)

/-- Lines 310–333: the value written under the sessions key — the full
serialization when its length is at most 2000, else the recomputed minimal
projection of the whole list. -/
def saveSessionLocallyValue (sessions : List StoredSession)
    (sd : SessionDetailsApiResponse) (interactions : List SessionInteraction)
    (now : Str) : Str :=
  let opt := optimizeSessionData sd interactions now
  let updated := upsertSession sessions opt
  let dataToStore := serializeSessions updated
  if 2000 < dataToStore.length then
    serializeSessions (updated.map minimalProjection)
  else dataToStore

/-! #### Size-tiered persistence (claim C3) and bounded upsert (claim C5) -/

/-- Claim C3 (amended): the persisted sessions value is the minimal projection,
recomputed across the whole updated list, when the serialized full projection
is strictly longer than 2000; at or below 2000 the full projection is
persisted (the source tests `dataToStore.length > 2000`, so the boundary value
2000 itself takes the full tier — see the counterexample). -/
theorem saveSessionLocally_tiering (sessions : List StoredSession)
    (sd : SessionDetailsApiResponse) (interactions : List SessionInteraction) (now : Str) :
    (2000 < (serializeSessions
        (upsertSession sessions (optimizeSessionData sd interactions now))).length →
      saveSessionLocallyValue sessions sd interactions now =
        serializeSessions
          ((upsertSession sessions (optimizeSessionData sd interactions now)).map
            minimalProjection)) ∧
    ((serializeSessions
        (upsertSession sessions (optimizeSessionData sd interactions now))).length ≤ 2000 →
      saveSessionLocallyValue sessions sd interactions now =
        serializeSessions (upsertSession sessions (optimizeSessionData sd interactions now))) := by
  unfold saveSessionLocallyValue
  constructor <;> intro h
  · rw [if_pos h]
  · rw [if_neg (by omega)]

/-- A small full session record used by the below-threshold witness. -/
def smallSD : SessionDetailsApiResponse :=
  { _id := str "a1"
    session_id := str "s1"
    original_filename := str "c.pdf"
    analysis_timestamp := str "t1"
    compliance_percentage := 50
    detected_contract_language := str "en"
    original_format := str "pdf"
    analysis_results := some [] }

set_option maxRecDepth 4000 in
/-- Witness for C3's amended theorem: a small record stays on the full tier. -/
theorem saveSessionLocally_tiering_witness :
    (serializeSessions (upsertSession [] (optimizeSessionData smallSD [] (str "t2")))).length
      ≤ 2000 ∧
    saveSessionLocallyValue [] smallSD [] (str "t2") =
      serializeSessions (upsertSession [] (optimizeSessionData smallSD [] (str "t2"))) :=
  ⟨by decide, (saveSessionLocally_tiering [] smallSD [] (str "t2")).2 (by decide)⟩

/-! The boundary counterexample: a record whose full serialization is exactly
2000 characters long.  Its length is computed symbolically (per-field lengths
by `decide`, the 1690-character filename by a replicate lemma), since kernel
evaluation of 2000-element lists is not practical. -/

theorem flatten_replicate_singleton (n : Nat) (c : Char) :
    (List.replicate n ([c] : Str)).flatten = List.replicate n c := by
  induction n with
  | zero => rfl
  | succ n ih => simp [List.replicate_succ, ih]

theorem jsonQuote_replicate_f (n : Nat) :
    jsonQuote (List.replicate n 'f') = '"' :: List.replicate n 'f' ++ ['"'] := by
  unfold jsonQuote
  rw [List.map_replicate, show jsonEscapeChar 'f' = ['f'] from by decide,
    flatten_replicate_singleton]

theorem length_jsonQuote_replicate_f (n : Nat) :
    (jsonQuote (List.replicate n 'f')).length = n + 2 := by
  rw [jsonQuote_replicate_f]
  simp

theorem length_jsonObj (fields : List Str) :
    (jsonObj fields).length = (joinComma fields).length + 2 := by
  simp [jsonObj]

theorem length_jsonArr_singleton (x : Str) : (jsonArr [x]).length = x.length + 2 := by
  simp [jsonArr, joinComma]

theorem length_jsonField (name : String) (v : Str) :
    (jsonField name v).length = (jsonQuote (str name)).length + 1 + v.length := by
  simp [jsonField]
  omega

theorem length_joinComma_cons (x y : Str) (ys : List Str) :
    (joinComma (x :: y :: ys)).length = x.length + 1 + (joinComma (y :: ys)).length := by
  simp [joinComma]
  omega

/-- The filename tuned so the full serialization is exactly 2000 characters. -/
def cexFilename : Str := List.replicate 1690 'f'

def cexNow : Str := str "2024-01-02T00:00:00.000Z"

/-- The upserted session whose full projection serializes to exactly 2000
characters. -/
def cexSD : SessionDetailsApiResponse :=
  { _id := str "65f0000000000000000000a1"
    session_id := str "sess-0001"
    original_filename := cexFilename
    analysis_timestamp := str "2024-01-01T00:00:00.000Z"
    compliance_percentage := 80
    detected_contract_language := str "en"
    original_format := str "pdf"
    analysis_results := some [] }

/-- The stored record `optimizeSessionData` builds from `cexSD`. -/
def cexRecord : StoredSession :=
  { _id := some (str "65f0000000000000000000a1")
    session_id := str "sess-0001"
    original_filename := cexFilename
    analysis_timestamp := str "2024-01-01T00:00:00.000Z"
    compliance_percentage := 80
    detected_contract_language := some (str "en")
    original_format := some (str "pdf")
    analysis_results := some []
    totalInteractions := some 0
    lastInteractionTime := some cexNow }

theorem cex_full_length :
    (serializeSessions (upsertSession [] (optimizeSessionData cexSD [] cexNow))).length
      = 2000 := by
  rw [show upsertSession [] (optimizeSessionData cexSD [] cexNow) = [cexRecord] from rfl]
  rw [show serializeSessions [cexRecord] = jsonArr [serializeStoredSession cexRecord] from rfl]
  rw [show serializeStoredSession cexRecord =
    jsonObj
      [jsonField "_id" (jsonQuote (str "65f0000000000000000000a1")),
       jsonField "session_id" (jsonQuote (str "sess-0001")),
       jsonField "original_filename" (jsonQuote cexFilename),
       jsonField "analysis_timestamp" (jsonQuote (str "2024-01-01T00:00:00.000Z")),
       jsonField "compliance_percentage" (natRepr 80),
       jsonField "detected_contract_language" (jsonQuote (str "en")),
       jsonField "original_format" (jsonQuote (str "pdf")),
       jsonField "analysis_results" (jsonArr (([] : List StoredTerm).map serializeStoredTerm)),
       jsonField "totalInteractions" (natRepr 0),
       jsonField "lastInteractionTime" (jsonQuote cexNow)] from rfl]
  rw [length_jsonArr_singleton, length_jsonObj]
  rw [length_joinComma_cons, length_joinComma_cons, length_joinComma_cons,
    length_joinComma_cons, length_joinComma_cons, length_joinComma_cons,
    length_joinComma_cons, length_joinComma_cons, length_joinComma_cons]
  rw [show joinComma [jsonField "lastInteractionTime" (jsonQuote cexNow)] =
    jsonField "lastInteractionTime" (jsonQuote cexNow) from rfl]
  rw [show (jsonField "original_filename" (jsonQuote cexFilename)).length = 1712 by
    rw [length_jsonField,
      show (jsonQuote (str "original_filename")).length = 19 from by decide,
      show cexFilename = List.replicate 1690 'f' from rfl, length_jsonQuote_replicate_f]]
  rw [show (jsonField "_id" (jsonQuote (str "65f0000000000000000000a1"))).length = 32
      from by decide,
    show (jsonField "session_id" (jsonQuote (str "sess-0001"))).length = 24 from by decide,
    show (jsonField "analysis_timestamp"
      (jsonQuote (str "2024-01-01T00:00:00.000Z"))).length = 47 from by decide,
    show (jsonField "compliance_percentage" (natRepr 80)).length = 26 from by decide,
    show (jsonField "detected_contract_language" (jsonQuote (str "en"))).length = 33
      from by decide,
    show (jsonField "original_format" (jsonQuote (str "pdf"))).length = 23 from by decide,
    show (jsonField "analysis_results"
      (jsonArr (([] : List StoredTerm).map serializeStoredTerm))).length = 21 from by decide,
    show (jsonField "totalInteractions" (natRepr 0)).length = 21 from by decide,
    show (jsonField "lastInteractionTime" (jsonQuote cexNow)).length = 48 from by decide]

theorem cex_minimal_length :
    (serializeSessions
      ((upsertSession [] (optimizeSessionData cexSD [] cexNow)).map minimalProjection)).length
      = 1887 := by
  rw [show (upsertSession [] (optimizeSessionData cexSD [] cexNow)).map minimalProjection =
    [minimalProjection cexRecord] from rfl]
  rw [show serializeSessions [minimalProjection cexRecord] =
    jsonArr [serializeStoredSession (minimalProjection cexRecord)] from rfl]
  rw [show serializeStoredSession (minimalProjection cexRecord) =
    jsonObj
      [jsonField "session_id" (jsonQuote (str "sess-0001")),
       jsonField "original_filename" (jsonQuote cexFilename),
       jsonField "analysis_timestamp" (jsonQuote (str "2024-01-01T00:00:00.000Z")),
       jsonField "compliance_percentage" (natRepr 80),
       jsonField "totalInteractions" (natRepr 0),
       jsonField "lastInteractionTime" (jsonQuote cexNow)] from rfl]
  rw [length_jsonArr_singleton, length_jsonObj]
  rw [length_joinComma_cons, length_joinComma_cons, length_joinComma_cons,
    length_joinComma_cons, length_joinComma_cons]
  rw [show joinComma [jsonField "lastInteractionTime" (jsonQuote cexNow)] =
    jsonField "lastInteractionTime" (jsonQuote cexNow) from rfl]
  rw [show (jsonField "original_filename" (jsonQuote cexFilename)).length = 1712 by
    rw [length_jsonField,
      show (jsonQuote (str "original_filename")).length = 19 from by decide,
      show cexFilename = List.replicate 1690 'f' from rfl, length_jsonQuote_replicate_f]]
  rw [show (jsonField "session_id" (jsonQuote (str "sess-0001"))).length = 24 from by decide,
    show (jsonField "analysis_timestamp"
      (jsonQuote (str "2024-01-01T00:00:00.000Z"))).length = 47 from by decide,
    show (jsonField "compliance_percentage" (natRepr 80)).length = 26 from by decide,
    show (jsonField "totalInteractions" (natRepr 0)).length = 21 from by decide,
    show (jsonField "lastInteractionTime" (jsonQuote cexNow)).length = 48 from by decide]

/-- Counterexample to C3 as stated: an upsert whose updated list serializes to
exactly 2000 characters — *at* the threshold — is persisted as the full
projection, not the minimal one (the source compares with strict `>`). -/
theorem saveSessionLocally_threshold_cex :
    (serializeSessions (upsertSession [] (optimizeSessionData cexSD [] cexNow))).length
      = 2000 ∧
    saveSessionLocallyValue [] cexSD [] cexNow =
      serializeSessions (upsertSession [] (optimizeSessionData cexSD [] cexNow)) ∧
    saveSessionLocallyValue [] cexSD [] cexNow ≠
      serializeSessions
        ((upsertSession [] (optimizeSessionData cexSD [] cexNow)).map minimalProjection) := by
  have hfull := cex_full_length
  have hmin := cex_minimal_length
  have hval : saveSessionLocallyValue [] cexSD [] cexNow =
      serializeSessions (upsertSession [] (optimizeSessionData cexSD [] cexNow)) := by
    unfold saveSessionLocallyValue
    rw [if_neg (by omega)]
  refine ⟨hfull, hval, ?_⟩
  intro hcontr
  rw [hval] at hcontr
  have := congrArg List.length hcontr
  rw [hfull, hmin] at this
  omega

/-- `findIdx?` is `none` when no element satisfies the predicate. -/
theorem findIdx?_eq_none_of {α : Type} (p : α → Bool) (l : List α)
    (h : ∀ x ∈ l, p x = false) : ∀ i, List.findIdx? p l i = none := by
  induction l with
  | nil => intro i; rfl
  | cons x xs ih =>
    intro i
    rw [List.findIdx?_cons, if_neg (by simp [h x (List.mem_cons_self x xs)]),
      ih (fun y hy => h y (List.mem_cons_of_mem x hy)) (i + 1)]

/-- Claim C5: after every upsert the list holds at most 20 records; upserting a
fresh identifier into a full list of 20 places the new record at index 0 and
evicts exactly the last (oldest) record; upserting an existing identifier
replaces it in place, preserving the total count. -/
theorem upsertSession_spec (sessions : List StoredSession) (opt : StoredSession) :
    (upsertSession sessions opt).length ≤ 20 ∧
    ((∀ s ∈ sessions, s.session_id ≠ opt.session_id) → sessions.length = 20 →
      upsertSession sessions opt = opt :: sessions.dropLast) ∧
    (∀ i, sessions.findIdx? (fun s => decide (s.session_id = opt.session_id)) = some i →
      sessions.length ≤ 20 →
      upsertSession sessions opt = sessions.set i opt ∧
      (upsertSession sessions opt).length = sessions.length) := by
  refine ⟨?_, ?_, ?_⟩
  · unfold upsertSession
    split <;> simp [List.length_take]
  · intro hfresh hlen
    unfold upsertSession
    rw [findIdx?_eq_none_of _ _ (fun s hs => decide_eq_false (hfresh s hs)) 0]
    rw [show (20 : Nat) = 19 + 1 from rfl, List.take_succ_cons,
      List.dropLast_eq_take, hlen]
  · intro i hi hlen
    have hstep : upsertSession sessions opt = (sessions.set i opt).take 20 := by
      unfold upsertSession
      rw [hi]
    constructor
    · rw [hstep]
      exact List.take_of_length_le (by rw [List.length_set]; omega)
    · rw [hstep, List.take_of_length_le (by rw [List.length_set]; omega), List.length_set]

/-- A skeletal stored record with a given identifier. -/
def mkSess (i : Nat) : StoredSession :=
  { _id := none
    session_id := natRepr i
    original_filename := []
    analysis_timestamp := []
    compliance_percentage := 0
    detected_contract_language := none
    original_format := none
    analysis_results := none
    totalInteractions := none
    lastInteractionTime := none }

/-- A full local list of 20 records with identifiers `0 .. 19`. -/
def sessions20 : List StoredSession := (List.range 20).map mkSess

/-- Witness for C5 at a full list of 20: the fresh record `99` lands at index 0
and the record `19` (last position) is evicted. -/
theorem upsertSession_spec_witness :
    (∀ s ∈ sessions20, s.session_id ≠ (mkSess 99).session_id) ∧
    sessions20.length = 20 ∧
    upsertSession sessions20 (mkSess 99) = mkSess 99 :: sessions20.dropLast :=
  ⟨by decide, by decide,
    (upsertSession_spec sessions20 (mkSess 99)).2.1 (by decide) (by decide)⟩

/-! ### The session orchestrator
(`SessionContext.tsx`: `uploadAndAnalyzeContract`, `addInteraction`,
`askQuestionAboutTerm`, and the simulated upload progress)

External API calls are oracles (`Except` of an error message or a result);
the interval's `Math.random()` draws are explicit rationals in `[0, 1)`. -/

/-- JavaScript truthiness of a nullable string (`null`, `undefined` and `""`
are falsy). -/
def jsTruthyStr : Option Str → Bool
  | none => false
  | some s => !s.isEmpty

/-- `String.prototype.includes`. -/
def strIncludes : Str → Str → Bool
  | [], pat => pat.isEmpty
  | c :: rest, pat => pat.isPrefixOf (c :: rest) || strIncludes rest pat

/-- The error classification of `uploadAndAnalyzeContract`'s catch block:
a message containing `"400"` maps to the invalid-format text, `"413"` to the
file-too-large text, anything else is passed through. -/
def classifyUploadError (msg : Str) : Str :=
  if strIncludes msg (str "400") then
    str "Invalid file format. Please check your file and try again."
  else if strIncludes msg (str "413") then
    str "File too large. Please use a smaller file."
  else msg

/-- The upload input: a file value carrying an optional name and resolved type. -/
structure UploadFile where
  name : Option Str
  type : Option Str
deriving DecidableEq

/-- Observable outcome of `uploadAndAnalyzeContract`: its return value, the
error fields, whether `api.uploadContract` was invoked, and the flag / progress
state after the `finally` block. -/
structure UploadOutcome where
  returnValue : Option Str
  uploadError : Option Str
  analysisError : Option Str
  errorMsg : Option Str
  uploadCalled : Bool
  isUploading : Bool
  isAnalyzingContract : Bool
  uploadProgress : ℚ
deriving DecidableEq

/-- The catch block of `uploadAndAnalyzeContract` followed by its `finally`. -/
def uploadFailure (msg : Str) (called : Bool) : UploadOutcome :=
  { returnValue := none
    uploadError := some (classifyUploadError msg)
    analysisError := some msg
    errorMsg := some msg
    uploadCalled := called
    isUploading := false
    isAnalyzingContract := false
    uploadProgress := 0 }

/-- `uploadAndAnalyzeContract`: validate the file (name, then type) before any
API call; on success return the new session identifier; every path ends in the
`finally` block resetting the busy flags and the progress value. -/
def uploadAndAnalyzeContract (file : UploadFile) (apiOutcome : Except Str Str) :
    UploadOutcome :=
  if jsTruthyStr file.name = false then
    uploadFailure (str "Invalid file: missing name") false
  else if jsTruthyStr file.type = false then
    uploadFailure (str "Invalid file: missing type") false
  else
    match apiOutcome with
    | Except.ok sid =>
      { returnValue := some sid
        uploadError := none
        analysisError := none
        errorMsg := none
        uploadCalled := true
        isUploading := false
        isAnalyzingContract := false
        uploadProgress := 0 }
    | Except.error msg => uploadFailure msg true

/-- Claim C6: a file lacking a name (and likewise one lacking a resolved type)
yields no session identifier, an `InvalidFile`-class upload error, and the
external upload client is never invoked. -/
theorem uploadAndAnalyzeContract_invalidFile (file : UploadFile) (api : Except Str Str) :
    (jsTruthyStr file.name = false →
      (uploadAndAnalyzeContract file api).returnValue = none ∧
      (uploadAndAnalyzeContract file api).uploadError =
        some (str "Invalid file: missing name") ∧
      (uploadAndAnalyzeContract file api).uploadCalled = false) ∧
    (jsTruthyStr file.type = false →
      (uploadAndAnalyzeContract file api).returnValue = none ∧
      ((uploadAndAnalyzeContract file api).uploadError =
          some (str "Invalid file: missing name") ∨
        (uploadAndAnalyzeContract file api).uploadError =
          some (str "Invalid file: missing type")) ∧
      (uploadAndAnalyzeContract file api).uploadCalled = false) := by
  constructor
  · intro h
    unfold uploadAndAnalyzeContract
    rw [if_pos h]
    refine ⟨rfl, ?_, rfl⟩
    rw [show uploadFailure (str "Invalid file: missing name") false =
      { returnValue := none
        uploadError := some (str "Invalid file: missing name")
        analysisError := some (str "Invalid file: missing name")
        errorMsg := some (str "Invalid file: missing name")
        uploadCalled := false
        isUploading := false
        isAnalyzingContract := false
        uploadProgress := 0 } from by decide]
  · intro h
    by_cases hn : jsTruthyStr file.name = false
    · unfold uploadAndAnalyzeContract
      rw [if_pos hn]
      exact ⟨rfl, Or.inl (by decide), rfl⟩
    · unfold uploadAndAnalyzeContract
      rw [if_neg hn, if_pos h]
      exact ⟨rfl, Or.inr (by decide), rfl⟩

/-- Witness for C6 at a file with no name. -/
theorem uploadAndAnalyzeContract_invalidFile_witness :
    jsTruthyStr (UploadFile.mk none (some (str "application/pdf"))).name = false ∧
    (uploadAndAnalyzeContract (UploadFile.mk none (some (str "application/pdf")))
        (Except.ok (str "sid-1"))).returnValue = none ∧
    (uploadAndAnalyzeContract (UploadFile.mk none (some (str "application/pdf")))
        (Except.ok (str "sid-1"))).uploadError = some (str "Invalid file: missing name") ∧
    (uploadAndAnalyzeContract (UploadFile.mk none (some (str "application/pdf")))
        (Except.ok (str "sid-1"))).uploadCalled = false :=
  ⟨rfl,
    ((uploadAndAnalyzeContract_invalidFile (UploadFile.mk none (some (str "application/pdf")))
      (Except.ok (str "sid-1"))).1 rfl).1,
    ((uploadAndAnalyzeContract_invalidFile (UploadFile.mk none (some (str "application/pdf")))
      (Except.ok (str "sid-1"))).1 rfl).2.1,
    ((uploadAndAnalyzeContract_invalidFile (UploadFile.mk none (some (str "application/pdf")))
      (Except.ok (str "sid-1"))).1 rfl).2.2⟩

/-! #### Simulated upload progress (claim C4) -/

/-- One tick of the progress interval:
`setUploadProgress(prev => prev >= 90 ? 90 : prev + Math.random() * 10)`
(the interval is also cleared when the first branch fires, which does not
affect the value computed here). -/
def progressTick (prev r : ℚ) : ℚ :=
  if 90 ≤ prev then 90 else prev + r * 10

theorem foldl_progressTick_lt (rs : List ℚ) :
    ∀ p : ℚ, (∀ x ∈ rs, 0 ≤ x ∧ x < 1) → p < 100 → List.foldl progressTick p rs < 100 := by
  induction rs with
  | nil => intro p _ hp; simpa using hp
  | cons r rest ih =>
    intro p hmem hp
    rw [List.foldl_cons]
    refine ih (progressTick p r) (fun x hx => hmem x (List.mem_cons_of_mem r hx)) ?_
    have hr := hmem r (List.mem_cons_self r rest)
    unfold progressTick
    split
    · norm_num
    · nlinarith [hr.1, hr.2]

/-- Claim C4 (amended): while the progress value is below 90 a tick never
decreases it and advances it by strictly less than 10; a tick at or above 90
yields exactly 90 (so a single overshoot above 90 — which the code permits, see
the counterexample — is pulled back to 90); starting from 0 the value always
stays below 100; and on completion of the upload call the `finally` block
resets the progress to 0. -/
theorem uploadProgress_spec (prev r : ℚ) (h0 : 0 ≤ r) (h1 : r < 1) :
    (prev < 90 → prev ≤ progressTick prev r ∧ progressTick prev r < prev + 10) ∧
    (90 ≤ prev → progressTick prev r = 90) ∧
    (∀ rs : List ℚ, (∀ x ∈ rs, 0 ≤ x ∧ x < 1) → List.foldl progressTick 0 rs < 100) ∧
    (∀ (file : UploadFile) (api : Except Str Str),
      (uploadAndAnalyzeContract file api).uploadProgress = 0) := by
  refine ⟨?_, ?_, ?_, ?_⟩
  · intro hlt
    unfold progressTick
    rw [if_neg (not_le.2 hlt)]
    constructor
    · nlinarith
    · nlinarith
  · intro hge
    unfold progressTick
    rw [if_pos hge]
  · intro rs hmem
    exact foldl_progressTick_lt rs 0 hmem (by norm_num)
  · intro file api
    unfold uploadAndAnalyzeContract
    split
    · rfl
    · split
      · rfl
      · cases api <;> rfl

/-- The eleven draws that drive the progress from 0 past the 90 ceiling. -/
def cexDraws : List ℚ :=
  [99/100, 99/100, 99/100, 99/100, 99/100, 99/100, 99/100, 99/100, 99/100, 99/100]

/-- Counterexample to C4 as stated: with admissible random draws (each in
`[0, 1)`) the simulated progress exceeds the 90 ceiling (it reaches 99 after
ten ticks), and the following tick *decreases* it back to 90, so the value is
neither capped at 90 at every step nor monotonically non-decreasing. -/
theorem uploadProgress_cex :
    (∀ r ∈ cexDraws, 0 ≤ r ∧ r < 1) ∧
    90 < List.foldl progressTick 0 cexDraws ∧
    progressTick (List.foldl progressTick 0 cexDraws) (1/2) <
      List.foldl progressTick 0 cexDraws := by
  refine ⟨?_, ?_, ?_⟩ <;> norm_num [cexDraws, progressTick]

/-- Witness for C4's amended theorem at `prev = 50`, `r = 1/2`. -/
theorem uploadProgress_spec_witness :
    (0 : ℚ) ≤ 1/2 ∧ (1/2 : ℚ) < 1 ∧ (50 : ℚ) < 90 ∧
    (50 : ℚ) ≤ progressTick 50 (1/2) ∧ progressTick 50 (1/2) < 50 + 10 :=
  ⟨by norm_num, by norm_num, by norm_num,
    ((uploadProgress_spec 50 (1/2) (by norm_num) (by norm_num)).1 (by norm_num)).1,
    ((uploadProgress_spec 50 (1/2) (by norm_num) (by norm_num)).1 (by norm_num)).2⟩

/-! #### Orchestrator state, the interaction log, and per-term questions
(claims C8 and C10) -/

/-- The persisted-interactions key (`storageKeys.SESSION_INTERACTIONS`). -/
def sessionInteractionsKey : Str := str "shariaa_session_interactions"

/-- The orchestrator state the verified operations touch.  The `store` field is
the chunked storage layer the context persists through. -/
structure SessState where
  sessionId : Option Str
  analysisTerms : Option (List FrontendAnalysisTerm)
  isTermProcessing : List (Str × Bool)
  isAskingQuestion : Bool
  sessionInteractions : List SessionInteraction
  store : Store
deriving DecidableEq

/-- The object-spread update `prev => ({ ...prev, [termId]: b })`. -/
def recordSet (m : List (Str × Bool)) (k : Str) (b : Bool) : List (Str × Bool) :=
  (k, b) :: m.filter (fun p => !decide (p.1 = k))

/-- `addInteraction`: a no-op without an active session; otherwise stamp the
interaction with the session identifier and the current time, prepend it, and
persist the updated list under the interactions key through the chunked store.
`ser` abstracts `JSON.stringify` of the interaction list (whose `data` payload
is untyped in the source). -/
def addInteraction (ser : List SessionInteraction → Str) (st : SessState)
    (ty : InteractionType) (termId : Option Str) (data : List (Str × Str))
    (now : Str) : SessState :=
  if jsTruthyStr st.sessionId = false then st
  else
    let newInteraction : SessionInteraction :=
      { sessionId := st.sessionId.getD []
        timestamp := now
        type := ty
        termId := termId
        data := data }
    let updated := newInteraction :: st.sessionInteractions
    { st with
        sessionInteractions := updated
        store := setItemAsync (fun _ => false) st.store sessionInteractionsKey (ser updated) }

/-- Claim C10: `addInteraction` with no active session is a complete no-op — no
record is created, the in-memory interaction list is unchanged, and nothing is
written to the persisted interactions key. -/
theorem addInteraction_no_session (ser : List SessionInteraction → Str)
    (st : SessState) (ty : InteractionType) (termId : Option Str)
    (data : List (Str × Str)) (now : Str) (h : st.sessionId = none) :
    addInteraction ser st ty termId data now = st ∧
    (addInteraction ser st ty termId data now).sessionInteractions =
      st.sessionInteractions ∧
    (addInteraction ser st ty termId data now).store = st.store := by
  have heq : addInteraction ser st ty termId data now = st := by
    unfold addInteraction
    rw [if_pos (by rw [h]; rfl)]
  exact ⟨heq, by rw [heq], by rw [heq]⟩

/-- An idle state with no active session. -/
def idleState : SessState :=
  { sessionId := none
    analysisTerms := none
    isTermProcessing := []
    isAskingQuestion := false
    sessionInteractions := []
    store := [] }

/-- Witness for C10 at the idle state. -/
theorem addInteraction_no_session_witness :
    idleState.sessionId = none ∧
    addInteraction (fun _ => []) idleState InteractionType.question_asked none [] [] =
      idleState :=
  ⟨rfl,
    (addInteraction_no_session (fun _ => []) idleState InteractionType.question_asked
      none [] [] rfl).1⟩

/-- `askQuestionAboutTerm`: requires an active session and an existing term;
sets the busy flags, asks the external client, updates the term's cached
answer, logs an interaction, and clears the busy flags in `finally`. -/
def askQuestionAboutTerm (ser : List SessionInteraction → Str) (st : SessState)
    (termId question : Str) (apiAnswer : Except Str Str) (now : Str) :
    Option Str × SessState :=
  if jsTruthyStr st.sessionId = false then (none, st)
  else
    match st.analysisTerms with
    | none => (none, st)
    | some terms =>
      match terms.find? (fun t => decide (t.term_id = termId)) with
      | none => (none, st)
      | some _term =>
        let st1 := { st with
          isAskingQuestion := true
          isTermProcessing := recordSet st.isTermProcessing termId true }
        match apiAnswer with
        | Except.ok answer =>
          let st2 := { st1 with
            analysisTerms := some (terms.map (fun t =>
              if t.term_id = termId then
                { t with
                    currentQaAnswer := some answer
                    lastModified := some now
                    interactionCount := t.interactionCount + 1 }
              else t)) }
          let st3 := addInteraction ser st2 InteractionType.question_asked (some termId)
            [(str "question", question), (str "answer", answer)] now
          (some answer,
            { st3 with
                isAskingQuestion := false
                isTermProcessing := recordSet st3.isTermProcessing termId false })
        | Except.error _ =>
          (none,
            { st1 with
                isAskingQuestion := false
                isTermProcessing := recordSet st1.isTermProcessing termId false })

/-- Claim C8: for a term identifier not present in the current term list,
`askQuestionAboutTerm` returns absent and leaves the state — in particular the
`isTermProcessing` map, the term list, and the interaction log — unchanged;
the per-term busy flag is never set. -/
theorem askQuestionAboutTerm_missing_term (ser : List SessionInteraction → Str)
    (st : SessState) (termId question : Str) (api : Except Str Str) (now : Str)
    (h : ∀ t ∈ st.analysisTerms.getD [], t.term_id ≠ termId) :
    askQuestionAboutTerm ser st termId question api now = (none, st) := by
  unfold askQuestionAboutTerm
  by_cases hs : jsTruthyStr st.sessionId = false
  · rw [if_pos hs]
  · rw [if_neg hs]
    cases hat : st.analysisTerms with
    | none => rfl
    | some terms =>
      rw [hat] at h
      simp only [Option.getD_some] at h
      have hf : terms.find? (fun t => decide (t.term_id = termId)) = none :=
        List.find?_eq_none.2 fun t ht => by
          simp only [decide_eq_true_eq]
          exact h t ht
      simp only [hf]

/-- A one-term state whose single term has identifier `"t1"`. -/
def oneTermState : SessState :=
  { sessionId := some (str "s1")
    analysisTerms := some
      [{ term_id := str "t1"
         term_text := str "clause"
         is_valid_sharia := true
         isUserConfirmed := false
         isReviewedSuggestionValid := none
         expert_override_is_valid_sharia := none
         currentQaAnswer := none
         lastModified := none
         has_expert_feedback := false
         interactionCount := 0 }]
    isTermProcessing := []
    isAskingQuestion := false
    sessionInteractions := []
    store := [] }

/-- Witness for C8: asking about the absent identifier `"t2"`. -/
theorem askQuestionAboutTerm_missing_term_witness :
    (∀ t ∈ oneTermState.analysisTerms.getD [], t.term_id ≠ str "t2") ∧
    askQuestionAboutTerm (fun _ => []) oneTermState (str "t2") (str "why?")
      (Except.ok (str "answer")) (str "t0") = (none, oneTermState) :=
  ⟨by decide,
    askQuestionAboutTerm_missing_term (fun _ => []) oneTermState (str "t2") (str "why?")
      (Except.ok (str "answer")) (str "t0") (by decide)⟩

end App
